import Mathlib

/-!
# Region grid of `strategy/regions.go`

A shallow embedding of the Go package `strategy` (file `regions.go`) and the
properties of its region grid: region codes, navigation, chess distance,
mirroring and the lookup of a region from a point.

Go's `int` is modelled as an `Int` kept in the 64-bit two's-complement range by
`wrap64` after every arithmetic operation.  A `float64` value is modelled by the
integer it denotes: every `float64` of this file comes from converting an `int`,
so it is a finite, integer-valued number.
-/

namespace Strategy

/-! ## Go's `int` -/

/-- Two's-complement wrap of an integer into the range of a 64-bit `int`. -/
def wrap64 (n : Int) : Int :=
  (n + 9223372036854775808) % 18446744073709551616 - 9223372036854775808

/-- The values of a 64-bit `int`: `-2^63 ≤ n < 2^63`. -/
def IsInt64 (n : Int) : Prop :=
  -9223372036854775808 ≤ n ∧ n < 9223372036854775808

instance (n : Int) : Decidable (IsInt64 n) := by
  unfold IsInt64; infer_instance

/-- Go's `a + b` on `int`. -/
def addInt (a b : Int) : Int := wrap64 (a + b)

/-- Go's `a - b` on `int`. -/
def subInt (a b : Int) : Int := wrap64 (a - b)

/-- Go's `a * b` on `int`. -/
def mulInt (a b : Int) : Int := wrap64 (a * b)

/-- Go's `a / b` on `int` for `b ≠ 0`: the quotient is truncated towards zero. -/
def divInt (a b : Int) : Int := wrap64 (Int.tdiv a b)

/-! ## Go's `float64`, on integer values -/

/-- The unit in the last place of the `float64` numbers around a natural number
`a` with `2^53 ≤ a < 2^64`: the least `u = 2^k` (searched upwards from the
starting `u`) with `a < 2^53 * u`. -/
def ulpFrom : Nat → Nat → Nat → Nat
  | 0, u, _ => u
  | k + 1, u, a => if a < 9007199254740992 * u then u else ulpFrom k (2 * u) a

/-- Rounding of `a` to the nearest multiple of the unit `u`, a tie going to the
even multiple. -/
def roundWith (a u : Nat) : Nat :=
  if 2 * (a % u) < u then a / u * u
  else if u < 2 * (a % u) then (a / u + 1) * u
  else if a / u % 2 = 0 then a / u * u
  else (a / u + 1) * u

/-- Rounding of a natural number `a ≤ 2^64` to the nearest number with a 53-bit
significand, ties to the even significand (IEEE 754 round-to-nearest-even).
Every number up to `2^53` is exact. -/
def roundNat (a : Nat) : Nat :=
  if a ≤ 9007199254740992 then a else roundWith a (ulpFrom 11 1 a)

/-- Go's conversion `float64(n)` of an `int`: the nearest `float64`, which is
again an integer. -/
def float64 (n : Int) : Int := Int.sign n * (roundNat n.natAbs : Int)

/-- Go's `math.Abs` on a finite `float64`. -/
def mathAbs (x : Int) : Int := |x|

/-- Go's `math.Max` on finite `float64` values. -/
def mathMax (x y : Int) : Int := max x y

/-- Go's `math.Min` on finite `float64` values. -/
def mathMin (x y : Int) : Int := min x y

/-! ## The external types and constants -/

/-- Modelled from the spec: the type `Physics.Point` of the external package
`commons/Physics`, a pair of field coordinates.  The source assigns `int`
expressions to `PosX` and `PosY`, so both fields are `int`. -/
structure Point where
  PosX : Int
  PosY : Int
  deriving DecidableEq

/-- Both coordinates of the point are values of a 64-bit `int`. -/
def Point.Valid (p : Point) : Prop := IsInt64 p.PosX ∧ IsInt64 p.PosY

instance (p : Point) : Decidable p.Valid := by
  unfold Point.Valid; infer_instance

/-- Modelled from the spec: the type `Units.TeamPlace` of the external package
`commons/Units`, the side indicator that distinguishes home from away. -/
inductive TeamPlace where
  | HomeTeam
  | AwayTeam
  deriving DecidableEq

/-- Modelled from the spec: what the package is compiled against.  `CourtWidth`
and `CourtHeight` are the constants `Units.CourtWidth` and `Units.CourtHeight`
of the external package `commons/Units` (the extents of the playing field), and
`IntOverflow` is the `int` that the target yields when a `float64` outside the
range of `int` is converted to `int` (the Go specification leaves that value to
the implementation). -/
structure Config where
  CourtWidth : Int
  CourtHeight : Int
  IntOverflow : Int
  deriving DecidableEq

/-- Go's conversion `int(f)` of an integer-valued `float64`. -/
def intOfFloat (c : Config) (f : Int) : Int :=
  if IsInt64 f then f else c.IntOverflow

/-! ## `regions.go` -/

/-- The constant `RegionHeight = Units.CourtHeight / 4` (exact constant
arithmetic, the quotient truncated towards zero). -/
def RegionHeight (c : Config) : Int := Int.tdiv c.CourtHeight 4

/-- The constant `RegionWidth = Units.CourtWidth / 8`. -/
def RegionWidth (c : Config) : Int := Int.tdiv c.CourtWidth 8

/-- The type `RegionCode`: a cartesian coordinate in the region division of
the court, two `int` fields. -/
structure RegionCode where
  X : Int
  Y : Int
  deriving DecidableEq

/-- The codes of the 8 × 4 grid: `X` in `[0,7]` and `Y` in `[0,3]`. -/
def RegionCode.InGrid (r : RegionCode) : Prop :=
  0 ≤ r.X ∧ r.X ≤ 7 ∧ 0 ≤ r.Y ∧ r.Y ≤ 3

instance (r : RegionCode) : Decidable r.InGrid := by
  unfold RegionCode.InGrid; infer_instance

/-- The function `MirrorCoordsToAway`. -/
def MirrorCoordsToAway (c : Config) (coords : Point) : Point :=
  { PosX := subInt c.CourtWidth coords.PosX
    PosY := subInt c.CourtHeight coords.PosY }

/-- The method `RegionCode.Center`. -/
def RegionCode.Center (c : Config) (r : RegionCode) (place : TeamPlace) : Point :=
  let center : Point :=
    { PosX := addInt (mulInt r.X (RegionWidth c)) (Int.tdiv (RegionWidth c) 2)
      PosY := addInt (mulInt r.Y (RegionHeight c)) (Int.tdiv (RegionHeight c) 2) }
  if place = TeamPlace.AwayTeam then MirrorCoordsToAway c center else center

/-- The method `RegionCode.ForwardRightCorner`. -/
def RegionCode.ForwardRightCorner (c : Config) (r : RegionCode) (place : TeamPlace) : Point :=
  let fr : Point :=
    { PosX := mulInt (addInt r.X 1) (RegionWidth c)
      PosY := mulInt r.Y (RegionHeight c) }
  if place = TeamPlace.AwayTeam then MirrorCoordsToAway c fr else fr

/-- The method `RegionCode.ForwardLeftCorner`. -/
def RegionCode.ForwardLeftCorner (c : Config) (r : RegionCode) (place : TeamPlace) : Point :=
  let fl : Point :=
    { PosX := mulInt (addInt r.X 1) (RegionWidth c)
      PosY := mulInt (addInt r.Y 1) (RegionHeight c) }
  if place = TeamPlace.AwayTeam then MirrorCoordsToAway c fl else fl

/-- The method `RegionCode.Forwards`. -/
def RegionCode.Forwards (r : RegionCode) : RegionCode :=
  if r.X = 7 then r else { X := addInt r.X 1, Y := r.Y }

/-- The method `RegionCode.Backwards`. -/
def RegionCode.Backwards (r : RegionCode) : RegionCode :=
  if r.X = 0 then r else { X := subInt r.X 1, Y := r.Y }

/-- The method `RegionCode.Left`. -/
def RegionCode.Left (r : RegionCode) : RegionCode :=
  if r.Y = 3 then r else { X := r.X, Y := addInt r.Y 1 }

/-- The method `RegionCode.Right`. -/
def RegionCode.Right (r : RegionCode) : RegionCode :=
  if r.Y = 0 then r else { X := r.X, Y := subInt r.Y 1 }

/-- The method `RegionCode.ChessDistanceTo`. -/
def RegionCode.ChessDistanceTo (c : Config) (r b : RegionCode) : Int :=
  intOfFloat c (mathMax
    (mathAbs (float64 (subInt r.X b.X)))
    (mathAbs (float64 (subInt r.Y b.Y))))

/-- The function `GetRegionCode`. -/
def GetRegionCode (c : Config) (a : Point) (place : TeamPlace) : RegionCode :=
  let a := if place = TeamPlace.AwayTeam then MirrorCoordsToAway c a else a
  let cx := float64 (divInt a.PosX (RegionWidth c))
  let cy := float64 (divInt a.PosY (RegionHeight c))
  { X := intOfFloat c (mathMin cx 7)
    Y := intOfFloat c (mathMin cy 3) }

/-- A sample configuration: a court of 20000 × 10000 units, on a target whose
out-of-range conversion yields the least `int` (as the gc compiler does on
amd64). -/
def sampleConfig : Config :=
  { CourtWidth := 20000, CourtHeight := 10000, IntOverflow := -9223372036854775808 }

/-- A sample point of the court of `sampleConfig`. -/
def samplePoint : Point := { PosX := 6000, PosY := 2600 }

/-- The least court that compiles: 8 × 4 units, so that every region is one
unit wide and one unit high. -/
def tinyConfig : Config :=
  { CourtWidth := 8, CourtHeight := 4, IntOverflow := -9223372036854775808 }

/-- The Chebyshev distance of the spec: `max(|ΔX|, |ΔY|)`, in exact integer
arithmetic. -/
def chebyshev (a b : RegionCode) : Int := max |a.X - b.X| |a.Y - b.Y|

/-! ## King moves on the grid -/

/-- The part of a king move along the columns: no step, `Forwards` or
`Backwards`. -/
inductive HStep where
  | stay
  | forwards
  | backwards
  deriving DecidableEq

/-- The part of a king move along the rows: no step, `Left` or `Right`. -/
inductive VStep where
  | stay
  | left
  | right
  deriving DecidableEq

/-- A king move: at most one of `Forwards` and `Backwards` together with at
most one of `Left` and `Right`. -/
structure KingMove where
  h : HStep
  v : VStep
  deriving DecidableEq

/-- The column step applied to a code, through the methods of `RegionCode`. -/
def HStep.apply : HStep → RegionCode → RegionCode
  | HStep.stay, r => r
  | HStep.forwards, r => r.Forwards
  | HStep.backwards, r => r.Backwards

/-- The row step applied to a code, through the methods of `RegionCode`. -/
def VStep.apply : VStep → RegionCode → RegionCode
  | VStep.stay, r => r
  | VStep.left, r => r.Left
  | VStep.right, r => r.Right

/-- A king move applied to a code: the column step, then the row step. -/
def KingMove.apply (m : KingMove) (r : RegionCode) : RegionCode :=
  m.v.apply (m.h.apply r)

/-- A sequence of king moves applied to a code, first move first. -/
def runMoves : List KingMove → RegionCode → RegionCode
  | [], r => r
  | m :: ms, r => runMoves ms (m.apply r)

/-- The king move that brings `a` one step nearer to `b` in each coordinate in
which they differ. -/
def stepToward (a b : RegionCode) : KingMove :=
  { h := if a.X < b.X then HStep.forwards else if b.X < a.X then HStep.backwards else HStep.stay
    v := if a.Y < b.Y then VStep.left else if b.Y < a.Y then VStep.right else VStep.stay }

/-- The sequence of `n` king moves that goes from `a` towards `b`. -/
def pathTo : Nat → RegionCode → RegionCode → List KingMove
  | 0, _, _ => []
  | n + 1, a, b => stepToward a b :: pathTo n ((stepToward a b).apply a) b

/-! ## Arithmetic of `int` and `float64` -/

theorem wrap64_of_isInt64 {n : Int} (h : IsInt64 n) : wrap64 n = n := by
  unfold IsInt64 at h
  unfold wrap64
  omega

theorem isInt64_wrap64 (n : Int) : IsInt64 (wrap64 n) := by
  unfold IsInt64 wrap64
  omega

theorem abs_wrap64_neg (n : Int) : |wrap64 (-n)| = |wrap64 n| := by
  unfold wrap64
  rw [abs_eq_abs]
  omega

theorem ulpFrom_zero (u a : Nat) : ulpFrom 0 u a = u := rfl

theorem ulpFrom_succ (k u a : Nat) :
    ulpFrom (k + 1) u a = if a < 9007199254740992 * u then u else ulpFrom k (2 * u) a := rfl

/-- The search of `roundNat`, unfolded: the eleven binades from `2^53` to `2^64`. -/
theorem ulpFrom_eleven (a : Nat) :
    ulpFrom 11 1 a =
      if a < 9007199254740992 then 1
      else if a < 18014398509481984 then 2
      else if a < 36028797018963968 then 4
      else if a < 72057594037927936 then 8
      else if a < 144115188075855872 then 16
      else if a < 288230376151711744 then 32
      else if a < 576460752303423488 then 64
      else if a < 1152921504606846976 then 128
      else if a < 2305843009213693952 then 256
      else if a < 4611686018427387904 then 512
      else if a < 9223372036854775808 then 1024
      else 2048 := by
  rw [show (11 : Nat) = 0 + 1 + 1 + 1 + 1 + 1 + 1 + 1 + 1 + 1 + 1 + 1 from rfl]
  simp only [ulpFrom_succ, ulpFrom_zero]

theorem roundNat_of_le {a : Nat} (h : a ≤ 9007199254740992) : roundNat a = a := by
  unfold roundNat
  rw [if_pos h]




/-- Case analysis on the unit in the last place found by the search, with the
binade of `a`. -/
theorem ulpFrom_elim (a : Nat) (P : Nat → Prop)
    (h0 : a < 9007199254740992 → P 1)
    (h1 : 9007199254740992 ≤ a → a < 18014398509481984 → P 2)
    (h2 : 18014398509481984 ≤ a → a < 36028797018963968 → P 4)
    (h3 : 36028797018963968 ≤ a → a < 72057594037927936 → P 8)
    (h4 : 72057594037927936 ≤ a → a < 144115188075855872 → P 16)
    (h5 : 144115188075855872 ≤ a → a < 288230376151711744 → P 32)
    (h6 : 288230376151711744 ≤ a → a < 576460752303423488 → P 64)
    (h7 : 576460752303423488 ≤ a → a < 1152921504606846976 → P 128)
    (h8 : 1152921504606846976 ≤ a → a < 2305843009213693952 → P 256)
    (h9 : 2305843009213693952 ≤ a → a < 4611686018427387904 → P 512)
    (h10 : 4611686018427387904 ≤ a → a < 9223372036854775808 → P 1024)
    (h11 : 9223372036854775808 ≤ a → P 2048) :
    P (ulpFrom 11 1 a) := by
  rw [ulpFrom_eleven]
  by_cases c0 : a < 9007199254740992
  · rw [if_pos c0]; exact h0 c0
  rw [if_neg c0]
  by_cases c1 : a < 18014398509481984
  · rw [if_pos c1]; exact h1 (by omega) c1
  rw [if_neg c1]
  by_cases c2 : a < 36028797018963968
  · rw [if_pos c2]; exact h2 (by omega) c2
  rw [if_neg c2]
  by_cases c3 : a < 72057594037927936
  · rw [if_pos c3]; exact h3 (by omega) c3
  rw [if_neg c3]
  by_cases c4 : a < 144115188075855872
  · rw [if_pos c4]; exact h4 (by omega) c4
  rw [if_neg c4]
  by_cases c5 : a < 288230376151711744
  · rw [if_pos c5]; exact h5 (by omega) c5
  rw [if_neg c5]
  by_cases c6 : a < 576460752303423488
  · rw [if_pos c6]; exact h6 (by omega) c6
  rw [if_neg c6]
  by_cases c7 : a < 1152921504606846976
  · rw [if_pos c7]; exact h7 (by omega) c7
  rw [if_neg c7]
  by_cases c8 : a < 2305843009213693952
  · rw [if_pos c8]; exact h8 (by omega) c8
  rw [if_neg c8]
  by_cases c9 : a < 4611686018427387904
  · rw [if_pos c9]; exact h9 (by omega) c9
  rw [if_neg c9]
  by_cases c10 : a < 9223372036854775808
  · rw [if_pos c10]; exact h10 (by omega) c10
  rw [if_neg c10]
  exact h11 (by omega)

theorem roundNat_of_lt {a : Nat} (h : 9007199254740992 < a) :
    roundNat a = roundWith a (ulpFrom 11 1 a) := by
  unfold roundNat
  rw [if_neg (by omega)]

theorem le_roundNat {a : Nat} (h : 9007199254740992 < a) : 9007199254740992 ≤ roundNat a := by
  rw [roundNat_of_lt h]
  refine ulpFrom_elim a (fun u => 9007199254740992 ≤ roundWith a u)
    ?_ ?_ ?_ ?_ ?_ ?_ ?_ ?_ ?_ ?_ ?_ ?_
  all_goals intros
  all_goals unfold roundWith
  all_goals split_ifs
  all_goals omega

theorem roundNat_lt {a : Nat} (h : a < 9223372036854775296) :
    roundNat a < 9223372036854775808 := by
  by_cases h1 : a ≤ 9007199254740992
  · rw [roundNat_of_le h1]; omega
  · rw [roundNat_of_lt (by omega)]
    refine ulpFrom_elim a (fun u => roundWith a u < 9223372036854775808)
      ?_ ?_ ?_ ?_ ?_ ?_ ?_ ?_ ?_ ?_ ?_ ?_
    all_goals intros
    all_goals unfold roundWith
    all_goals split_ifs
    all_goals omega

theorem roundNat_le {a : Nat} (h : a ≤ 9223372036854775808) :
    roundNat a ≤ 9223372036854775808 := by
  by_cases h1 : a ≤ 9007199254740992
  · rw [roundNat_of_le h1]; omega
  · rw [roundNat_of_lt (by omega)]
    refine ulpFrom_elim a (fun u => roundWith a u ≤ 9223372036854775808)
      ?_ ?_ ?_ ?_ ?_ ?_ ?_ ?_ ?_ ?_ ?_ ?_
    all_goals intros
    all_goals unfold roundWith
    all_goals split_ifs
    all_goals omega

theorem roundNat_eq_zero {a : Nat} : roundNat a = 0 ↔ a = 0 := by
  by_cases h1 : a ≤ 9007199254740992
  · rw [roundNat_of_le h1]
  · have := le_roundNat (a := a) (by omega)
    omega

/-! ### Facts on `float64` -/

theorem float64_of_abs_le {n : Int} (h : |n| ≤ 9007199254740992) : float64 n = n := by
  rw [Int.abs_eq_natAbs] at h
  unfold float64
  rw [roundNat_of_le (by omega)]
  exact Int.sign_mul_natAbs n

theorem float64_neg (n : Int) : float64 (-n) = -float64 n := by
  unfold float64
  rw [Int.sign_neg, Int.natAbs_neg, neg_mul]

theorem float64_eq_zero {n : Int} : float64 n = 0 ↔ n = 0 := by
  unfold float64
  rw [mul_eq_zero, Int.sign_eq_zero_iff_zero, Int.natCast_eq_zero, roundNat_eq_zero]
  omega

theorem abs_float64 (n : Int) : |float64 n| = (roundNat n.natAbs : Int) := by
  unfold float64
  rcases lt_trichotomy n 0 with h | h | h
  · rw [Int.sign_eq_neg_one_of_neg h]; simp
  · subst h; simp [roundNat]
  · rw [Int.sign_eq_one_of_pos h]; simp

theorem float64_of_nonneg {n : Int} (h : 0 ≤ n) : float64 n = (roundNat n.natAbs : Int) := by
  rw [← abs_float64]
  unfold float64
  rw [abs_of_nonneg]
  exact mul_nonneg (Int.sign_nonneg.mpr h) (Int.natCast_nonneg _)

/-- Sample conversions: `2^53 + 1` and `2^53 + 3` are ties and go to the even
significand, the least `int` is exact, and the greatest `int` rounds up to
`2^63`. -/
theorem float64_samples :
    float64 9007199254740993 = 9007199254740992 ∧
      float64 9007199254740995 = 9007199254740996 ∧
      float64 (-9223372036854775808) = -9223372036854775808 ∧
      float64 9223372036854775807 = 9223372036854775808 := by
  decide

/-- Rounding never brings a number above 7 down to 7 or below. -/
theorem lt_float64 {n : Int} (h : 7 < n) : 7 < float64 n := by
  by_cases h1 : n ≤ 9007199254740992
  · rw [float64_of_abs_le (by rw [abs_of_nonneg (by omega)]; exact h1)]; exact h
  · rw [float64_of_nonneg (by omega)]
    have := le_roundNat (a := n.natAbs) (by omega)
    omega

/-! ## Looking up the region of a point -/

/-- One coordinate of `GetRegionCode`: for a non-negative coordinate `x` and a
non-negative cell size `w`, the code is the floor quotient clamped to `k`. -/
theorem lookup_clamp (c : Config) {x w k : Int} (hx0 : 0 ≤ x) (hx : IsInt64 x)
    (hw : 0 ≤ w) (hk0 : 0 ≤ k) (hk : k ≤ 7) :
    intOfFloat c (mathMin (float64 (divInt x w)) k) = min (x / w) k := by
  have hq : Int.tdiv x w = x / w := Int.tdiv_eq_ediv hx0 hw
  have hq0 : 0 ≤ x / w := Int.ediv_nonneg hx0 hw
  have hqle : x / w ≤ x := Int.ediv_le_self _ hx0
  unfold IsInt64 at hx
  unfold divInt
  rw [hq]
  generalize x / w = q at hq0 hqle
  rw [wrap64_of_isInt64 (by unfold IsInt64; omega)]
  unfold mathMin intOfFloat
  by_cases h7 : q ≤ 7
  · rw [float64_of_abs_le (by rw [abs_of_nonneg hq0]; omega), if_pos]
    unfold IsInt64
    omega
  · have hf := lt_float64 (n := q) (by omega)
    rw [min_eq_right (by omega), min_eq_right (by omega), if_pos]
    unfold IsInt64
    omega

/-- The floor of a rational quotient of integers with a positive denominator is
the integer quotient. -/
theorem floor_div_eq {x w : Int} (hw : 0 < w) : ⌊(x : ℚ) / (w : ℚ)⌋ = x / w := by
  obtain ⟨d, rfl⟩ := Int.eq_ofNat_of_zero_le (le_of_lt hw)
  exact Rat.floor_intCast_div_natCast x d

/-- Claim C1: for a point with non-negative coordinates and positive region
sizes, the home-side lookup returns the code whose `X` is
`min(floor(PosX / regionWidth), 7)` and whose `Y` is
`min(floor(PosY / regionHeight), 3)`, the floor taken of the exact quotient. -/
theorem GetRegionCode_home_floor (c : Config) (p : Point) (hp : p.Valid)
    (hx : 0 ≤ p.PosX) (hy : 0 ≤ p.PosY)
    (hw : 0 < RegionWidth c) (hh : 0 < RegionHeight c) :
    GetRegionCode c p TeamPlace.HomeTeam =
      { X := min ⌊(p.PosX : ℚ) / (RegionWidth c : ℚ)⌋ 7
        Y := min ⌊(p.PosY : ℚ) / (RegionHeight c : ℚ)⌋ 3 } := by
  rw [floor_div_eq hw, floor_div_eq hh]
  unfold GetRegionCode
  rw [if_neg (by decide)]
  dsimp only
  rw [lookup_clamp c hx hp.1 (le_of_lt hw) (by decide) (by decide),
    lookup_clamp c hy hp.2 (le_of_lt hh) (by decide) (by decide)]

/-- Witness of C1 at the point (6000, 2600) of a 20000 × 10000 court. -/
theorem GetRegionCode_home_floor_witness :
    GetRegionCode sampleConfig samplePoint TeamPlace.HomeTeam =
      { X := min ⌊(samplePoint.PosX : ℚ) / (RegionWidth sampleConfig : ℚ)⌋ 7
        Y := min ⌊(samplePoint.PosY : ℚ) / (RegionHeight sampleConfig : ℚ)⌋ 3 } :=
  GetRegionCode_home_floor sampleConfig samplePoint (by decide) (by decide) (by decide)
    (by decide) (by decide)

/-- Claim C2: grid coverage.  Every point inside the court, looked up for
either side, gets a code with `X` in `[0,7]` and `Y` in `[0,3]`; the court
extents are `int` constants. -/
theorem GetRegionCode_inGrid (c : Config) (p : Point) (side : TeamPlace)
    (hW : IsInt64 c.CourtWidth) (hH : IsInt64 c.CourtHeight)
    (hx0 : 0 ≤ p.PosX) (hx : p.PosX ≤ c.CourtWidth)
    (hy0 : 0 ≤ p.PosY) (hy : p.PosY ≤ c.CourtHeight) :
    (GetRegionCode c p side).InGrid := by
  unfold IsInt64 at hW hH
  have hw : 0 ≤ RegionWidth c := by
    unfold RegionWidth
    rw [Int.tdiv_eq_ediv (by omega) (by decide)]
    omega
  have hh : 0 ≤ RegionHeight c := by
    unfold RegionHeight
    rw [Int.tdiv_eq_ediv (by omega) (by decide)]
    omega
  have key : ∀ q : Point, 0 ≤ q.PosX → q.PosX ≤ c.CourtWidth → 0 ≤ q.PosY →
      q.PosY ≤ c.CourtHeight →
      RegionCode.InGrid
        { X := intOfFloat c (mathMin (float64 (divInt q.PosX (RegionWidth c))) 7)
          Y := intOfFloat c (mathMin (float64 (divInt q.PosY (RegionHeight c))) 3) } := by
    intro q h1 h2 h3 h4
    rw [lookup_clamp c h1 (by unfold IsInt64; omega) hw (by decide) (by decide),
      lookup_clamp c h3 (by unfold IsInt64; omega) hh (by decide) (by decide)]
    have a1 := Int.ediv_nonneg h1 hw
    have a2 := Int.ediv_nonneg h3 hh
    unfold RegionCode.InGrid
    dsimp only
    omega
  cases side with
  | HomeTeam =>
    unfold GetRegionCode
    rw [if_neg (by decide)]
    exact key p hx0 hx hy0 hy
  | AwayTeam =>
    unfold GetRegionCode
    rw [if_pos rfl]
    refine key (MirrorCoordsToAway c p) ?_ ?_ ?_ ?_
    all_goals unfold MirrorCoordsToAway subInt
    all_goals dsimp only
    all_goals rw [wrap64_of_isInt64 (by unfold IsInt64; omega)]
    all_goals omega

/-- Witness of C2 at the far corner of a 20000 × 10000 court, seen from the
away side. -/
theorem GetRegionCode_inGrid_witness :
    (GetRegionCode sampleConfig { PosX := 20000, PosY := 10000 } TeamPlace.AwayTeam).InGrid :=
  GetRegionCode_inGrid sampleConfig { PosX := 20000, PosY := 10000 } TeamPlace.AwayTeam
    (by decide) (by decide) (by decide) (by decide) (by decide) (by decide)

/-- Claim C3: the away-side lookup of a point is exactly the home-side lookup
of the mirrored point. -/
theorem GetRegionCode_away_eq_home_mirror (c : Config) (p : Point) :
    GetRegionCode c p TeamPlace.AwayTeam =
      GetRegionCode c (MirrorCoordsToAway c p) TeamPlace.HomeTeam := by
  unfold GetRegionCode
  rw [if_pos rfl, if_neg (by decide)]

/-! ## Mirroring -/

/-- Claim C4: `MirrorCoordsToAway` is an involution on the points whose
coordinates are `int` values, and it maps `p` to
`(courtWidth - p.PosX, courtHeight - p.PosY)`, the subtraction being the one of
`int`. -/
theorem MirrorCoordsToAway_involution (c : Config) (p : Point) (hp : p.Valid) :
    MirrorCoordsToAway c (MirrorCoordsToAway c p) = p ∧
      MirrorCoordsToAway c p =
        { PosX := subInt c.CourtWidth p.PosX, PosY := subInt c.CourtHeight p.PosY } := by
  refine ⟨?_, rfl⟩
  obtain ⟨x, y⟩ := p
  obtain ⟨h1, h2⟩ := hp
  unfold IsInt64 at h1 h2
  dsimp only at h1 h2
  unfold MirrorCoordsToAway subInt wrap64
  dsimp only
  congr 1 <;> omega

/-- Witness of C4 at the point (6000, 2600). -/
theorem MirrorCoordsToAway_involution_witness :
    MirrorCoordsToAway sampleConfig (MirrorCoordsToAway sampleConfig samplePoint) = samplePoint ∧
      MirrorCoordsToAway sampleConfig samplePoint =
        { PosX := subInt sampleConfig.CourtWidth samplePoint.PosX
          PosY := subInt sampleConfig.CourtHeight samplePoint.PosY } :=
  MirrorCoordsToAway_involution sampleConfig samplePoint (by decide)

/-! ## Navigation -/

/-- Claim C5: absorbing-edge navigation.  `Forwards` returns `{X+1, Y}` unless
`X = 7`, `Backwards` returns `{X-1, Y}` unless `X = 0`, `Left` returns
`{X, Y+1}` unless `Y = 3` and `Right` returns `{X, Y-1}` unless `Y = 0`, the
code being returned unchanged in the excepted case (`+` and `-` are those of
`int`); an edge code is absorbed in every row or column, `{2,2}.Right()` is
`{2,1}` and `{2,0}.Right()` is `{2,0}`. -/
theorem navigation_absorbing (r : RegionCode) :
    (r.Forwards = if r.X = 7 then r else { X := addInt r.X 1, Y := r.Y }) ∧
    (r.Backwards = if r.X = 0 then r else { X := subInt r.X 1, Y := r.Y }) ∧
    (r.Left = if r.Y = 3 then r else { X := r.X, Y := addInt r.Y 1 }) ∧
    (r.Right = if r.Y = 0 then r else { X := r.X, Y := subInt r.Y 1 }) ∧
    RegionCode.Forwards { X := 7, Y := r.Y } = { X := 7, Y := r.Y } ∧
    RegionCode.Backwards { X := 0, Y := r.Y } = { X := 0, Y := r.Y } ∧
    RegionCode.Left { X := r.X, Y := 3 } = { X := r.X, Y := 3 } ∧
    RegionCode.Right { X := r.X, Y := 0 } = { X := r.X, Y := 0 } ∧
    RegionCode.Right { X := 2, Y := 2 } = { X := 2, Y := 1 } ∧
    RegionCode.Right { X := 2, Y := 0 } = { X := 2, Y := 0 } :=
  ⟨rfl, rfl, rfl, rfl, if_pos rfl, if_pos rfl, if_pos rfl, if_pos rfl, by decide, by decide⟩

/-- Claim C6: grid invariant.  From a code of the grid, each of `Forwards`,
`Backwards`, `Left` and `Right` yields a code of the grid. -/
theorem navigation_inGrid (r : RegionCode) (h : r.InGrid) :
    r.Forwards.InGrid ∧ r.Backwards.InGrid ∧ r.Left.InGrid ∧ r.Right.InGrid := by
  obtain ⟨x, y⟩ := r
  unfold RegionCode.InGrid at h
  dsimp only at h
  unfold RegionCode.Forwards RegionCode.Backwards RegionCode.Left RegionCode.Right
  unfold RegionCode.InGrid addInt subInt wrap64
  dsimp only
  refine ⟨?_, ?_, ?_, ?_⟩ <;> split_ifs <;> dsimp only <;> omega

/-- Witness of C6 at the corner code `{7, 0}`, where two of the four steps are
absorbed. -/
theorem navigation_inGrid_witness :
    (RegionCode.Forwards { X := 7, Y := 0 }).InGrid ∧
      (RegionCode.Backwards { X := 7, Y := 0 }).InGrid ∧
      (RegionCode.Left { X := 7, Y := 0 }).InGrid ∧
      (RegionCode.Right { X := 7, Y := 0 }).InGrid :=
  navigation_inGrid { X := 7, Y := 0 } (by decide)

/-! ## Chess distance -/

/-- The distance in terms of the rounded magnitudes of the two differences. -/
theorem ChessDistanceTo_eq (c : Config) (a b : RegionCode) :
    a.ChessDistanceTo c b =
      intOfFloat c (max ((roundNat (subInt a.X b.X).natAbs : Nat) : Int)
        ((roundNat (subInt a.Y b.Y).natAbs : Nat) : Int)) := by
  unfold RegionCode.ChessDistanceTo mathMax mathAbs
  rw [abs_float64, abs_float64]

/-- Claim C7, counterexample: the codes `{2^53 + 1, 0}` and `{0, 0}` are at
Chebyshev distance `2^53 + 1`, and `ChessDistanceTo` returns `2^53`, the
`float64` nearest to the difference. -/
theorem ChessDistanceTo_ne_chebyshev :
    RegionCode.ChessDistanceTo sampleConfig { X := 9007199254740993, Y := 0 } { X := 0, Y := 0 }
        = 9007199254740992 ∧
      chebyshev { X := 9007199254740993, Y := 0 } { X := 0, Y := 0 } = 9007199254740993 := by
  decide

/-- Claim C7, amended: for two codes whose coordinates differ by at most `2^53`
in magnitude (every pair of codes of the grid does), `ChessDistanceTo` is the
Chebyshev distance `max(|ΔX|, |ΔY|)`. -/
theorem ChessDistanceTo_eq_chebyshev (c : Config) (a b : RegionCode)
    (hx : |a.X - b.X| ≤ 9007199254740992) (hy : |a.Y - b.Y| ≤ 9007199254740992) :
    a.ChessDistanceTo c b = chebyshev a b := by
  rw [Int.abs_eq_natAbs] at hx hy
  have wx : subInt a.X b.X = a.X - b.X := wrap64_of_isInt64 (by unfold IsInt64; omega)
  have wy : subInt a.Y b.Y = a.Y - b.Y := wrap64_of_isInt64 (by unfold IsInt64; omega)
  rw [ChessDistanceTo_eq, wx, wy, roundNat_of_le (by omega), roundNat_of_le (by omega)]
  unfold chebyshev intOfFloat
  rw [Int.abs_eq_natAbs, Int.abs_eq_natAbs, if_pos]
  unfold IsInt64
  omega

/-- Witness of C7: `{0,0}.ChessDistanceTo({3,2})` is 3. -/
theorem ChessDistanceTo_eq_chebyshev_witness :
    RegionCode.ChessDistanceTo sampleConfig { X := 0, Y := 0 } { X := 3, Y := 2 } = 3 :=
  ChessDistanceTo_eq_chebyshev sampleConfig { X := 0, Y := 0 } { X := 3, Y := 2 }
    (by decide) (by decide)

/-- Claim C8, counterexample: from `{-2^63, 0}` to `{0, 0}` the `float64`
maximum is `2^63`, which no `int` holds, and the distance is the value the
target gives to the conversion: a negative number on the sample target. -/
theorem ChessDistanceTo_negative :
    RegionCode.ChessDistanceTo sampleConfig { X := -9223372036854775808, Y := 0 }
      { X := 0, Y := 0 } < 0 := by
  decide

/-- On every target the distance from `{-2^63, 0}` to `{0, 0}` is the value the
target gives to the out-of-range conversion. -/
theorem ChessDistanceTo_overflow (c : Config) :
    RegionCode.ChessDistanceTo c { X := -9223372036854775808, Y := 0 } { X := 0, Y := 0 }
      = c.IntOverflow := by
  have h : mathMax (mathAbs (float64 (subInt (-9223372036854775808) 0)))
      (mathAbs (float64 (subInt 0 0))) = 9223372036854775808 := by decide
  unfold RegionCode.ChessDistanceTo
  dsimp only
  rw [h]
  unfold intOfFloat
  rw [if_neg (by decide)]

/-- Claim C8, amended: for two codes whose coordinates differ by less than
`2^63 - 512` in magnitude, `ChessDistanceTo` is non-negative, and it is zero if
and only if the two codes are equal. -/
theorem ChessDistanceTo_nonneg_eq_zero_iff (c : Config) (a b : RegionCode)
    (hx : |a.X - b.X| < 9223372036854775296) (hy : |a.Y - b.Y| < 9223372036854775296) :
    0 ≤ a.ChessDistanceTo c b ∧ (a.ChessDistanceTo c b = 0 ↔ a = b) := by
  rw [Int.abs_eq_natAbs] at hx hy
  have wx : subInt a.X b.X = a.X - b.X := wrap64_of_isInt64 (by unfold IsInt64; omega)
  have wy : subInt a.Y b.Y = a.Y - b.Y := wrap64_of_isInt64 (by unfold IsInt64; omega)
  have rx := roundNat_lt (a := (a.X - b.X).natAbs) (by omega)
  have ry := roundNat_lt (a := (a.Y - b.Y).natAbs) (by omega)
  have zx := roundNat_eq_zero (a := (a.X - b.X).natAbs)
  have zy := roundNat_eq_zero (a := (a.Y - b.Y).natAbs)
  rw [ChessDistanceTo_eq, wx, wy]
  unfold intOfFloat
  rw [if_pos (by unfold IsInt64; omega)]
  obtain ⟨ax, ay⟩ := a
  obtain ⟨bx, by_⟩ := b
  simp only [RegionCode.mk.injEq] at *
  omega

/-- Witness of C8 at the codes `{0,0}` and `{3,2}`. -/
theorem ChessDistanceTo_nonneg_eq_zero_iff_witness :
    0 ≤ RegionCode.ChessDistanceTo sampleConfig { X := 0, Y := 0 } { X := 3, Y := 2 } ∧
      (RegionCode.ChessDistanceTo sampleConfig { X := 0, Y := 0 } { X := 3, Y := 2 } = 0 ↔
        ({ X := 0, Y := 0 } : RegionCode) = { X := 3, Y := 2 }) :=
  ChessDistanceTo_nonneg_eq_zero_iff sampleConfig { X := 0, Y := 0 } { X := 3, Y := 2 }
    (by decide) (by decide)

/-- Claim C9: distance symmetry and identity.  For every pair of codes
`a.ChessDistanceTo(b) == b.ChessDistanceTo(a)`, and `a.ChessDistanceTo(a) == 0`. -/
theorem ChessDistanceTo_comm_self (c : Config) (a b : RegionCode) :
    a.ChessDistanceTo c b = b.ChessDistanceTo c a ∧ a.ChessDistanceTo c a = 0 := by
  have key : ∀ x y : Int, (subInt x y).natAbs = (subInt y x).natAbs := by
    intro x y
    unfold subInt wrap64
    omega
  constructor
  · rw [ChessDistanceTo_eq, ChessDistanceTo_eq, key a.X b.X, key a.Y b.Y]
  · rw [ChessDistanceTo_eq]
    unfold subInt
    have h0 : roundNat (wrap64 0).natAbs = 0 := by decide
    rw [sub_self, sub_self, h0]
    unfold intOfFloat
    rw [if_pos (by decide)]
    rfl

/-! ## Center of a region -/

/-- Taking the sum after a wrapped product wraps to the same `int` as the exact
sum of the exact product. -/
theorem addInt_mulInt (x w h : Int) : addInt (mulInt x w) h = wrap64 (x * w + h) := by
  unfold addInt mulInt wrap64
  omega

/-- Claim C10: the home-side center of a code is the point
`(X*regionWidth + regionWidth/2, Y*regionHeight + regionHeight/2)`, the value
of each formula taken as an `int`, and the away-side center is the mirror of
the home-side center. -/
theorem Center_home_away (c : Config) (r : RegionCode) :
    r.Center c TeamPlace.HomeTeam =
        { PosX := wrap64 (r.X * RegionWidth c + (RegionWidth c).tdiv 2)
          PosY := wrap64 (r.Y * RegionHeight c + (RegionHeight c).tdiv 2) } ∧
      r.Center c TeamPlace.AwayTeam = MirrorCoordsToAway c (r.Center c TeamPlace.HomeTeam) := by
  unfold RegionCode.Center
  rw [if_neg (by decide), if_pos rfl, addInt_mulInt, addInt_mulInt]
  exact ⟨rfl, rfl⟩

/-- The centers of the code `{3, 1}` on a 20000 × 10000 court. -/
theorem Center_sample :
    RegionCode.Center sampleConfig { X := 3, Y := 1 } TeamPlace.HomeTeam
        = { PosX := 8750, PosY := 3750 } ∧
      RegionCode.Center sampleConfig { X := 3, Y := 1 } TeamPlace.AwayTeam
        = { PosX := 11250, PosY := 6250 } := by
  decide

/-- A positive region width comes from a non-negative court width, and is
its floor quotient by 8. -/
theorem RegionWidth_of_pos {c : Config} (h : 0 < RegionWidth c) :
    0 ≤ c.CourtWidth ∧ RegionWidth c = c.CourtWidth / 8 := by
  unfold RegionWidth at *
  by_cases h0 : 0 ≤ c.CourtWidth
  · exact ⟨h0, Int.tdiv_eq_ediv h0 (by decide)⟩
  · have h1 := Int.tdiv_nonneg (a := -c.CourtWidth) (b := 8) (by omega) (by decide)
    rw [Int.neg_tdiv] at h1
    omega

/-- A positive region height comes from a non-negative court height, and is
its floor quotient by 4. -/
theorem RegionHeight_of_pos {c : Config} (h : 0 < RegionHeight c) :
    0 ≤ c.CourtHeight ∧ RegionHeight c = c.CourtHeight / 4 := by
  unfold RegionHeight at *
  by_cases h0 : 0 ≤ c.CourtHeight
  · exact ⟨h0, Int.tdiv_eq_ediv h0 (by decide)⟩
  · have h1 := Int.tdiv_nonneg (a := -c.CourtHeight) (b := 4) (by omega) (by decide)
    rw [Int.neg_tdiv] at h1
    omega

/-- Claim C11, counterexample: on the 8 × 4 court both region sizes are 1, and
the home-side center of the code `{3, 1}` has `PosX = 3`, the near edge of the
cell, so it is not strictly inside. -/
theorem Center_on_edge :
    0 < RegionWidth tinyConfig ∧ 0 < RegionHeight tinyConfig ∧
      ¬ (3 * RegionWidth tinyConfig <
          (RegionCode.Center tinyConfig { X := 3, Y := 1 } TeamPlace.HomeTeam).PosX) := by
  decide

/-- Claim C11, amended: when both region sizes are at least 2 and the four
edges of the cell of `r` are `int` values, the home-side center of `r` lies
strictly inside the cell. -/
theorem Center_strictly_inside (c : Config) (r : RegionCode)
    (hw : 2 ≤ RegionWidth c) (hh : 2 ≤ RegionHeight c)
    (hx0 : IsInt64 (r.X * RegionWidth c)) (hx1 : IsInt64 ((r.X + 1) * RegionWidth c))
    (hy0 : IsInt64 (r.Y * RegionHeight c)) (hy1 : IsInt64 ((r.Y + 1) * RegionHeight c)) :
    r.X * RegionWidth c < (r.Center c TeamPlace.HomeTeam).PosX ∧
      (r.Center c TeamPlace.HomeTeam).PosX < (r.X + 1) * RegionWidth c ∧
      r.Y * RegionHeight c < (r.Center c TeamPlace.HomeTeam).PosY ∧
      (r.Center c TeamPlace.HomeTeam).PosY < (r.Y + 1) * RegionHeight c := by
  unfold RegionCode.Center
  rw [if_neg (by decide), addInt_mulInt, addInt_mulInt]
  dsimp only
  rw [Int.tdiv_eq_ediv (by omega) (by decide), Int.tdiv_eq_ediv (by omega) (by decide)]
  simp only [add_mul, one_mul] at hx1 hy1 ⊢
  unfold IsInt64 at hx0 hx1 hy0 hy1
  generalize r.X * RegionWidth c = mx at *
  generalize r.Y * RegionHeight c = my at *
  rw [wrap64_of_isInt64 (by unfold IsInt64; omega), wrap64_of_isInt64 (by unfold IsInt64; omega)]
  omega

/-- Witness of C11 at the code `{3, 1}` of a 20000 × 10000 court. -/
theorem Center_strictly_inside_witness :
    3 * RegionWidth sampleConfig <
        (RegionCode.Center sampleConfig { X := 3, Y := 1 } TeamPlace.HomeTeam).PosX ∧
      (RegionCode.Center sampleConfig { X := 3, Y := 1 } TeamPlace.HomeTeam).PosX <
        (3 + 1) * RegionWidth sampleConfig ∧
      1 * RegionHeight sampleConfig <
        (RegionCode.Center sampleConfig { X := 3, Y := 1 } TeamPlace.HomeTeam).PosY ∧
      (RegionCode.Center sampleConfig { X := 3, Y := 1 } TeamPlace.HomeTeam).PosY <
        (1 + 1) * RegionHeight sampleConfig :=
  Center_strictly_inside sampleConfig { X := 3, Y := 1 } (by decide) (by decide)
    (by decide) (by decide) (by decide) (by decide)

/-! ## Forward corners -/

/-- An `int` differs from the exact number it wraps by a multiple of `2^64`. -/
theorem wrap64_eq_sub (n : Int) :
    wrap64 n = n - 18446744073709551616 * ((n + 9223372036854775808) / 18446744073709551616) := by
  unfold wrap64
  omega

/-- Wrapping absorbs a multiple of `2^64`. -/
theorem wrap64_sub_mul (m j : Int) : wrap64 (m - 18446744073709551616 * j) = wrap64 m := by
  unfold wrap64
  omega

/-- The product of a wrapped sum wraps to the same `int` as the exact product. -/
theorem mulInt_addInt (x w : Int) : mulInt (addInt x 1) w = wrap64 ((x + 1) * w) := by
  unfold mulInt addInt
  rw [wrap64_eq_sub (x + 1), sub_mul, mul_assoc, wrap64_sub_mul]

/-- Claim C12: the home-side forward right corner of a code is
`((X+1)*regionWidth, Y*regionHeight)` and the forward left corner is
`((X+1)*regionWidth, (Y+1)*regionHeight)`, the value of each formula taken as
an `int`; the two corners have the same `PosX` and their `PosY` differ by
exactly `regionHeight`; for the away side each is the mirror of its home
result. -/
theorem forward_corners (c : Config) (r : RegionCode) (hh : IsInt64 (RegionHeight c)) :
    r.ForwardRightCorner c TeamPlace.HomeTeam =
        { PosX := wrap64 ((r.X + 1) * RegionWidth c), PosY := wrap64 (r.Y * RegionHeight c) } ∧
      r.ForwardLeftCorner c TeamPlace.HomeTeam =
        { PosX := wrap64 ((r.X + 1) * RegionWidth c)
          PosY := wrap64 ((r.Y + 1) * RegionHeight c) } ∧
      (r.ForwardLeftCorner c TeamPlace.HomeTeam).PosX =
        (r.ForwardRightCorner c TeamPlace.HomeTeam).PosX ∧
      subInt (r.ForwardLeftCorner c TeamPlace.HomeTeam).PosY
        (r.ForwardRightCorner c TeamPlace.HomeTeam).PosY = RegionHeight c ∧
      r.ForwardRightCorner c TeamPlace.AwayTeam =
        MirrorCoordsToAway c (r.ForwardRightCorner c TeamPlace.HomeTeam) ∧
      r.ForwardLeftCorner c TeamPlace.AwayTeam =
        MirrorCoordsToAway c (r.ForwardLeftCorner c TeamPlace.HomeTeam) := by
  unfold RegionCode.ForwardRightCorner RegionCode.ForwardLeftCorner
  rw [if_neg (by decide), if_neg (by decide), if_pos rfl, if_pos rfl,
    mulInt_addInt, mulInt_addInt]
  refine ⟨rfl, rfl, rfl, ?_, rfl, rfl⟩
  dsimp only
  unfold IsInt64 at hh
  unfold mulInt subInt
  rw [add_mul, one_mul]
  generalize r.Y * RegionHeight c = m
  unfold wrap64
  omega

/-- Witness of C12 at the code `{3, 1}` of a 20000 × 10000 court. -/
theorem forward_corners_witness :
    RegionCode.ForwardRightCorner sampleConfig { X := 3, Y := 1 } TeamPlace.HomeTeam =
        { PosX := wrap64 ((3 + 1) * RegionWidth sampleConfig)
          PosY := wrap64 (1 * RegionHeight sampleConfig) } ∧
      RegionCode.ForwardLeftCorner sampleConfig { X := 3, Y := 1 } TeamPlace.HomeTeam =
        { PosX := wrap64 ((3 + 1) * RegionWidth sampleConfig)
          PosY := wrap64 ((1 + 1) * RegionHeight sampleConfig) } ∧
      (RegionCode.ForwardLeftCorner sampleConfig { X := 3, Y := 1 } TeamPlace.HomeTeam).PosX =
        (RegionCode.ForwardRightCorner sampleConfig { X := 3, Y := 1 } TeamPlace.HomeTeam).PosX ∧
      subInt (RegionCode.ForwardLeftCorner sampleConfig { X := 3, Y := 1 } TeamPlace.HomeTeam).PosY
        (RegionCode.ForwardRightCorner sampleConfig { X := 3, Y := 1 } TeamPlace.HomeTeam).PosY =
          RegionHeight sampleConfig ∧
      RegionCode.ForwardRightCorner sampleConfig { X := 3, Y := 1 } TeamPlace.AwayTeam =
        MirrorCoordsToAway sampleConfig
          (RegionCode.ForwardRightCorner sampleConfig { X := 3, Y := 1 } TeamPlace.HomeTeam) ∧
      RegionCode.ForwardLeftCorner sampleConfig { X := 3, Y := 1 } TeamPlace.AwayTeam =
        MirrorCoordsToAway sampleConfig
          (RegionCode.ForwardLeftCorner sampleConfig { X := 3, Y := 1 } TeamPlace.HomeTeam) :=
  forward_corners sampleConfig { X := 3, Y := 1 } (by decide)

/-- The corners of the code `{3, 1}` on a 20000 × 10000 court. -/
theorem corners_sample :
    RegionCode.ForwardRightCorner sampleConfig { X := 3, Y := 1 } TeamPlace.HomeTeam
        = { PosX := 10000, PosY := 2500 } ∧
      RegionCode.ForwardLeftCorner sampleConfig { X := 3, Y := 1 } TeamPlace.HomeTeam
        = { PosX := 10000, PosY := 5000 } ∧
      RegionCode.ForwardRightCorner sampleConfig { X := 3, Y := 1 } TeamPlace.AwayTeam
        = { PosX := 10000, PosY := 7500 } := by
  decide

/-! ## The edges of the lookup -/

/-- A quotient caught between two consecutive multiples of the divisor. -/
theorem ediv_eq_of_bounds {x w q : Int} (hw : 0 < w) (h1 : q * w ≤ x) (h2 : x < (q + 1) * w) :
    x / w = q := by
  have a1 : q ≤ x / w := Int.le_ediv_of_mul_le hw h1
  have a2 : x / w < q + 1 := Int.ediv_lt_of_lt_mul hw h2
  omega

/-- The home-side lookup of a point with non-negative `int` coordinates, for
non-negative region sizes: the floor quotients clamped to 7 and 3. -/
theorem GetRegionCode_home_ediv (c : Config) (p : Point)
    (hx0 : 0 ≤ p.PosX) (hx : IsInt64 p.PosX) (hy0 : 0 ≤ p.PosY) (hy : IsInt64 p.PosY)
    (hw : 0 ≤ RegionWidth c) (hh : 0 ≤ RegionHeight c) :
    GetRegionCode c p TeamPlace.HomeTeam =
      { X := min (p.PosX / RegionWidth c) 7, Y := min (p.PosY / RegionHeight c) 3 } := by
  unfold GetRegionCode
  rw [if_neg (by decide)]
  dsimp only
  rw [lookup_clamp c hx0 hx hw (by decide) (by decide),
    lookup_clamp c hy0 hy hh (by decide) (by decide)]

/-- Claim C13: far-edge clamping.  With region sizes of at least 1 and court
extents that are `int` constants, the points `{W-1, H-1}` and `{W, H}` are both
looked up as the code `{7, 3}` for the home side. -/
theorem GetRegionCode_far_edge (c : Config)
    (hW : IsInt64 c.CourtWidth) (hH : IsInt64 c.CourtHeight)
    (hw : 1 ≤ RegionWidth c) (hh : 1 ≤ RegionHeight c) :
    GetRegionCode c { PosX := c.CourtWidth - 1, PosY := c.CourtHeight - 1 } TeamPlace.HomeTeam
        = { X := 7, Y := 3 } ∧
      GetRegionCode c { PosX := c.CourtWidth, PosY := c.CourtHeight } TeamPlace.HomeTeam
        = { X := 7, Y := 3 } := by
  obtain ⟨w0, we⟩ := RegionWidth_of_pos (c := c) (by omega)
  obtain ⟨h0, he⟩ := RegionHeight_of_pos (c := c) (by omega)
  unfold IsInt64 at hW hH
  have w7 : 7 ≤ (c.CourtWidth - 1) / RegionWidth c :=
    Int.le_ediv_of_mul_le (by omega) (by omega)
  have w8 : 7 ≤ c.CourtWidth / RegionWidth c :=
    Int.le_ediv_of_mul_le (by omega) (by omega)
  have h3 : 3 ≤ (c.CourtHeight - 1) / RegionHeight c :=
    Int.le_ediv_of_mul_le (by omega) (by omega)
  have h4 : 3 ≤ c.CourtHeight / RegionHeight c :=
    Int.le_ediv_of_mul_le (by omega) (by omega)
  rw [GetRegionCode_home_ediv c _ (by dsimp only; omega) (by unfold IsInt64; dsimp only; omega)
      (by dsimp only; omega) (by unfold IsInt64; dsimp only; omega) (by omega) (by omega),
    GetRegionCode_home_ediv c _ (by dsimp only; omega) (by unfold IsInt64; dsimp only; omega)
      (by dsimp only; omega) (by unfold IsInt64; dsimp only; omega) (by omega) (by omega)]
  dsimp only
  rw [min_eq_right w7, min_eq_right w8, min_eq_right h3, min_eq_right h4]
  exact ⟨rfl, rfl⟩

/-- Witness of C13 on a 20000 × 10000 court. -/
theorem GetRegionCode_far_edge_witness :
    GetRegionCode sampleConfig
        { PosX := sampleConfig.CourtWidth - 1, PosY := sampleConfig.CourtHeight - 1 }
        TeamPlace.HomeTeam = { X := 7, Y := 3 } ∧
      GetRegionCode sampleConfig
        { PosX := sampleConfig.CourtWidth, PosY := sampleConfig.CourtHeight }
        TeamPlace.HomeTeam = { X := 7, Y := 3 } :=
  GetRegionCode_far_edge sampleConfig (by decide) (by decide) (by decide) (by decide)

/-! ## Negative coordinates -/

/-- One coordinate of `GetRegionCode`, for a positive cell size: the code is
negative exactly when the coordinate is at most `-w`. -/
theorem lookup_neg_iff (c : Config) {x w k : Int} (hx : IsInt64 x) (hw : 0 < w)
    (hk0 : 0 ≤ k) (hk : k ≤ 7) :
    intOfFloat c (mathMin (float64 (divInt x w)) k) < 0 ↔ x ≤ -w := by
  by_cases hx0 : 0 ≤ x
  · rw [lookup_clamp c hx0 hx (le_of_lt hw) hk0 hk]
    have hq0 : 0 ≤ x / w := Int.ediv_nonneg hx0 (le_of_lt hw)
    omega
  · unfold IsInt64 at hx
    have hq : Int.tdiv x w = -((-x) / w) := by
      have e : x = -(-x) := by omega
      rw [e, Int.neg_tdiv, Int.tdiv_eq_ediv (by omega) (le_of_lt hw), neg_neg]
    have hq0 : 0 ≤ (-x) / w := Int.ediv_nonneg (by omega) (le_of_lt hw)
    have hqle : (-x) / w ≤ -x := Int.ediv_le_self _ (by omega)
    have hone : 1 ≤ (-x) / w ↔ 1 * w ≤ -x := Int.le_ediv_iff_mul_le hw
    unfold divInt
    rw [hq]
    generalize (-x) / w = q at hq0 hqle hone
    rw [wrap64_of_isInt64 (by unfold IsInt64; omega), float64_neg, float64_of_nonneg hq0]
    have r0 := roundNat_eq_zero (a := q.natAbs)
    have r1 := roundNat_le (a := q.natAbs) (by omega)
    unfold mathMin intOfFloat
    generalize roundNat q.natAbs = f at r0 r1
    rw [if_pos (by unfold IsInt64; omega)]
    omega

/-- Claim C14, counterexample: the point `(-1, -1)` has two negative
coordinates and is looked up as the code `{0, 0}`, a code of the grid, since
the quotient of -1 by 2500 is truncated to 0. -/
theorem GetRegionCode_negative_inGrid :
    GetRegionCode sampleConfig { PosX := -1, PosY := -1 } TeamPlace.HomeTeam = { X := 0, Y := 0 } ∧
      (GetRegionCode sampleConfig { PosX := -1, PosY := -1 } TeamPlace.HomeTeam).InGrid := by
  decide

/-- Claim C14, amended: for positive region sizes, the `X` of the home-side
lookup of a point is negative exactly when `PosX ≤ -regionWidth`, and its `Y`
is negative exactly when `PosY ≤ -regionHeight`. -/
theorem GetRegionCode_negative_iff (c : Config) (p : Point) (hp : p.Valid)
    (hw : 0 < RegionWidth c) (hh : 0 < RegionHeight c) :
    ((GetRegionCode c p TeamPlace.HomeTeam).X < 0 ↔ p.PosX ≤ -RegionWidth c) ∧
      ((GetRegionCode c p TeamPlace.HomeTeam).Y < 0 ↔ p.PosY ≤ -RegionHeight c) := by
  unfold GetRegionCode
  rw [if_neg (by decide)]
  dsimp only
  exact ⟨lookup_neg_iff c hp.1 hw (by decide) (by decide),
    lookup_neg_iff c hp.2 hh (by decide) (by decide)⟩

/-- Witness of C14 at the point `(-2500, -2499)` of a 20000 × 10000 court: the
first coordinate gives a negative code, the second does not. -/
theorem GetRegionCode_negative_iff_witness :
    ((GetRegionCode sampleConfig { PosX := -2500, PosY := -2499 } TeamPlace.HomeTeam).X < 0 ↔
        (-2500 : Int) ≤ -RegionWidth sampleConfig) ∧
      ((GetRegionCode sampleConfig { PosX := -2500, PosY := -2499 } TeamPlace.HomeTeam).Y < 0 ↔
        (-2499 : Int) ≤ -RegionHeight sampleConfig) :=
  GetRegionCode_negative_iff sampleConfig { PosX := -2500, PosY := -2499 } (by decide)
    (by decide) (by decide)

/-! ## King moves and the chess distance -/

/-- The Chebyshev distance through `natAbs`. -/
theorem chebyshev_eq (a b : RegionCode) :
    chebyshev a b = max ((a.X - b.X).natAbs : Int) ((a.Y - b.Y).natAbs : Int) := by
  unfold chebyshev
  rw [Int.abs_eq_natAbs, Int.abs_eq_natAbs]

/-- On the grid the chess distance is the Chebyshev distance. -/
theorem ChessDistanceTo_inGrid (c : Config) (a b : RegionCode) (ha : a.InGrid)
    (hb : b.InGrid) : a.ChessDistanceTo c b = chebyshev a b := by
  unfold RegionCode.InGrid at ha hb
  have wx : subInt a.X b.X = a.X - b.X := wrap64_of_isInt64 (by unfold IsInt64; omega)
  have wy : subInt a.Y b.Y = a.Y - b.Y := wrap64_of_isInt64 (by unfold IsInt64; omega)
  rw [ChessDistanceTo_eq, wx, wy, roundNat_of_le (by omega), roundNat_of_le (by omega),
    chebyshev_eq]
  unfold intOfFloat
  rw [if_pos]
  unfold IsInt64
  omega

/-- The four steps on a code of the grid, coordinate by coordinate: a step
moves one coordinate by one and stops at the edge. -/
theorem nav_coords (r : RegionCode) (hr : r.InGrid) :
    r.Forwards = { X := min (r.X + 1) 7, Y := r.Y } ∧
      r.Backwards = { X := max (r.X - 1) 0, Y := r.Y } ∧
      r.Left = { X := r.X, Y := min (r.Y + 1) 3 } ∧
      r.Right = { X := r.X, Y := max (r.Y - 1) 0 } := by
  obtain ⟨x, y⟩ := r
  unfold RegionCode.InGrid at hr
  dsimp only at hr
  unfold RegionCode.Forwards RegionCode.Backwards RegionCode.Left RegionCode.Right
  unfold addInt subInt wrap64
  dsimp only
  refine ⟨?_, ?_, ?_, ?_⟩ <;> split_ifs <;> rw [RegionCode.mk.injEq] <;> omega

theorem hstep_stay (r : RegionCode) : HStep.stay.apply r = r := rfl

theorem hstep_forwards (r : RegionCode) : HStep.forwards.apply r = r.Forwards := rfl

theorem hstep_backwards (r : RegionCode) : HStep.backwards.apply r = r.Backwards := rfl

theorem vstep_stay (r : RegionCode) : VStep.stay.apply r = r := rfl

theorem vstep_left (r : RegionCode) : VStep.left.apply r = r.Left := rfl

theorem vstep_right (r : RegionCode) : VStep.right.apply r = r.Right := rfl

/-- A column step keeps a code of the grid on the grid, keeps its row and
changes its column by at most one. -/
theorem hstep_bounds (h : HStep) (r : RegionCode) (hr : r.InGrid) :
    (h.apply r).InGrid ∧ (h.apply r).Y = r.Y ∧
      -1 ≤ (h.apply r).X - r.X ∧ (h.apply r).X - r.X ≤ 1 := by
  obtain ⟨e1, e2, -, -⟩ := nav_coords r hr
  unfold RegionCode.InGrid at hr ⊢
  cases h
  · rw [hstep_stay]
    omega
  · rw [hstep_forwards, e1]
    dsimp only
    omega
  · rw [hstep_backwards, e2]
    dsimp only
    omega

/-- A row step keeps a code of the grid on the grid, keeps its column and
changes its row by at most one. -/
theorem vstep_bounds (v : VStep) (r : RegionCode) (hr : r.InGrid) :
    (v.apply r).InGrid ∧ (v.apply r).X = r.X ∧
      -1 ≤ (v.apply r).Y - r.Y ∧ (v.apply r).Y - r.Y ≤ 1 := by
  obtain ⟨-, -, e3, e4⟩ := nav_coords r hr
  unfold RegionCode.InGrid at hr ⊢
  cases v
  · rw [vstep_stay]
    omega
  · rw [vstep_left, e3]
    dsimp only
    omega
  · rw [vstep_right, e4]
    dsimp only
    omega

/-- A king move keeps a code of the grid on the grid and changes each
coordinate by at most one. -/
theorem kingMove_bounds (m : KingMove) (r : RegionCode) (hr : r.InGrid) :
    (m.apply r).InGrid ∧ -1 ≤ (m.apply r).X - r.X ∧ (m.apply r).X - r.X ≤ 1 ∧
      -1 ≤ (m.apply r).Y - r.Y ∧ (m.apply r).Y - r.Y ≤ 1 := by
  obtain ⟨g1, y1, a1, b1⟩ := hstep_bounds m.h r hr
  obtain ⟨g2, x2, a2, b2⟩ := vstep_bounds m.v (m.h.apply r) g1
  unfold KingMove.apply
  exact ⟨g2, by omega, by omega, by omega, by omega⟩

/-- The move of `stepToward` brings each coordinate of `a` one nearer to the
coordinate of `b`, when the two differ. -/
theorem stepToward_coords (a b : RegionCode) (ha : a.InGrid) (hb : b.InGrid) :
    ((stepToward a b).apply a).X =
        (if a.X < b.X then a.X + 1 else if b.X < a.X then a.X - 1 else a.X) ∧
      ((stepToward a b).apply a).Y =
        (if a.Y < b.Y then a.Y + 1 else if b.Y < a.Y then a.Y - 1 else a.Y) := by
  obtain ⟨e1, e2, -, -⟩ := nav_coords a ha
  have hX : ((stepToward a b).h.apply a).X =
      (if a.X < b.X then a.X + 1 else if b.X < a.X then a.X - 1 else a.X) ∧
      ((stepToward a b).h.apply a).Y = a.Y := by
    unfold RegionCode.InGrid at ha hb
    unfold stepToward
    dsimp only
    split_ifs
    · rw [hstep_forwards, e1]
      dsimp only
      omega
    · rw [hstep_backwards, e2]
      dsimp only
      omega
    · rw [hstep_stay]
      omega
  obtain ⟨g1, -, -, -⟩ := hstep_bounds (stepToward a b).h a ha
  obtain ⟨-, -, e3, e4⟩ := nav_coords ((stepToward a b).h.apply a) g1
  obtain ⟨-, x2, -, -⟩ := vstep_bounds (stepToward a b).v _ g1
  unfold KingMove.apply
  refine ⟨by rw [x2]; exact hX.1, ?_⟩
  unfold RegionCode.InGrid at ha hb
  have hv : (stepToward a b).v =
      if a.Y < b.Y then VStep.left else if b.Y < a.Y then VStep.right else VStep.stay := rfl
  rw [hv]
  split_ifs
  · rw [vstep_left, e3]
    dsimp only
    omega
  · rw [vstep_right, e4]
    dsimp only
    omega
  · rw [vstep_stay]
    omega

/-- The path of `pathTo` has the length it was asked for. -/
theorem length_pathTo (n : Nat) (a b : RegionCode) : (pathTo n a b).length = n := by
  induction n generalizing a with
  | zero => rfl
  | succ k ih =>
    unfold pathTo
    rw [List.length_cons, ih]

/-- On the grid, the path of `pathTo` with as many moves as the Chebyshev
distance arrives. -/
theorem runMoves_pathTo (n : Nat) (a b : RegionCode) (ha : a.InGrid) (hb : b.InGrid)
    (hn : chebyshev a b = n) : runMoves (pathTo n a b) a = b := by
  induction n generalizing a with
  | zero =>
    unfold pathTo runMoves
    rw [chebyshev_eq] at hn
    obtain ⟨ax, ay⟩ := a
    obtain ⟨bx, by_⟩ := b
    rw [RegionCode.mk.injEq]
    dsimp only at hn
    omega
  | succ k ih =>
    unfold pathTo runMoves
    obtain ⟨ex, ey⟩ := stepToward_coords a b ha hb
    obtain ⟨g, -⟩ := kingMove_bounds (stepToward a b) a ha
    apply ih _ g
    rw [chebyshev_eq] at hn ⊢
    rw [ex, ey]
    split_ifs <;> omega

/-- A sequence of king moves from a code of the grid has at least as many moves
as the Chebyshev distance to the code it arrives at. -/
theorem chebyshev_le_length (ms : List KingMove) (a b : RegionCode) (ha : a.InGrid)
    (h : runMoves ms a = b) : chebyshev a b ≤ ms.length := by
  induction ms generalizing a with
  | nil =>
    unfold runMoves at h
    subst h
    rw [chebyshev_eq]
    simp
  | cons m ms ih =>
    unfold runMoves at h
    obtain ⟨g, x1, x2, y1, y2⟩ := kingMove_bounds m a ha
    have := ih _ g h
    rw [chebyshev_eq] at this ⊢
    rw [List.length_cons]
    omega

/-- Claim C15: the chess distance is the minimum number of king moves.  For
two codes of the grid there is a sequence of exactly `a.ChessDistanceTo(b)` king
moves that takes `a` to `b`, and every sequence of king moves that takes `a` to
`b` has at least that many moves. -/
theorem ChessDistanceTo_king_moves (c : Config) (a b : RegionCode) (ha : a.InGrid)
    (hb : b.InGrid) :
    (∃ ms : List KingMove, (ms.length : Int) = a.ChessDistanceTo c b ∧ runMoves ms a = b) ∧
      ∀ ms : List KingMove, runMoves ms a = b → a.ChessDistanceTo c b ≤ (ms.length : Int) := by
  rw [ChessDistanceTo_inGrid c a b ha hb]
  constructor
  · have h0 : 0 ≤ chebyshev a b := by rw [chebyshev_eq]; omega
    obtain ⟨n, hn⟩ := Int.eq_ofNat_of_zero_le h0
    exact ⟨pathTo n a b, by rw [length_pathTo, hn], runMoves_pathTo n a b ha hb hn⟩
  · intro ms h
    exact chebyshev_le_length ms a b ha h

/-- Witness of C15 at the codes `{0, 0}` and `{3, 2}`, three king moves
apart. -/
theorem ChessDistanceTo_king_moves_witness :
    (∃ ms : List KingMove,
        (ms.length : Int) =
          RegionCode.ChessDistanceTo sampleConfig { X := 0, Y := 0 } { X := 3, Y := 2 } ∧
        runMoves ms { X := 0, Y := 0 } = { X := 3, Y := 2 }) ∧
      ∀ ms : List KingMove, runMoves ms { X := 0, Y := 0 } = { X := 3, Y := 2 } →
        RegionCode.ChessDistanceTo sampleConfig { X := 0, Y := 0 } { X := 3, Y := 2 }
          ≤ (ms.length : Int) :=
  ChessDistanceTo_king_moves sampleConfig { X := 0, Y := 0 } { X := 3, Y := 2 }
    (by decide) (by decide)

/-- The path found between `{0, 0}` and `{3, 2}`: two diagonal moves and one
straight move. -/
theorem pathTo_sample :
    pathTo 3 { X := 0, Y := 0 } { X := 3, Y := 2 } =
        [{ h := HStep.forwards, v := VStep.left }, { h := HStep.forwards, v := VStep.left },
          { h := HStep.forwards, v := VStep.stay }] ∧
      runMoves (pathTo 3 { X := 0, Y := 0 } { X := 3, Y := 2 }) { X := 0, Y := 0 } =
        { X := 3, Y := 2 } := by
  decide

/-! ## Round trips between codes and points -/

/-- Mirroring twice gives back a point with `int` coordinates. -/
theorem MirrorCoordsToAway_twice (c : Config) (p : Point) (hp : p.Valid) :
    MirrorCoordsToAway c (MirrorCoordsToAway c p) = p := by
  obtain ⟨x, y⟩ := p
  obtain ⟨h1, h2⟩ := hp
  unfold IsInt64 at h1 h2
  dsimp only at h1 h2
  unfold MirrorCoordsToAway subInt wrap64
  dsimp only
  congr 1 <;> omega

/-- The away-side lookup of a mirrored point is the home-side lookup of the
point. -/
theorem GetRegionCode_away_mirror (c : Config) (p : Point) (hp : p.Valid) :
    GetRegionCode c (MirrorCoordsToAway c p) TeamPlace.AwayTeam =
      GetRegionCode c p TeamPlace.HomeTeam := by
  unfold GetRegionCode
  rw [if_pos rfl, if_neg (by decide), MirrorCoordsToAway_twice c p hp]

/-- The multiples of a cell size by the coordinates of the grid. -/
theorem mul_cell_bounds {x w k : Int} (hx0 : 0 ≤ x) (hxk : x ≤ k) (hw : 0 ≤ w) :
    0 ≤ x * w ∧ x * w ≤ k * w :=
  ⟨Int.mul_nonneg hx0 hw, Int.mul_le_mul_of_nonneg_right hxk hw⟩

/-- The home-side lookup of the point `(x*w + dx, y*h + dy)` whose offsets stay
inside one cell, for a code `{x, y}` of the grid, is `{x, y}`. -/
theorem GetRegionCode_cell (c : Config) (r : RegionCode) (dx dy : Int) (hr : r.InGrid)
    (hW : IsInt64 c.CourtWidth) (hH : IsInt64 c.CourtHeight)
    (hw : 1 ≤ RegionWidth c) (hh : 1 ≤ RegionHeight c)
    (hdx0 : 0 ≤ dx) (hdx : dx < RegionWidth c) (hdy0 : 0 ≤ dy) (hdy : dy < RegionHeight c) :
    GetRegionCode c { PosX := r.X * RegionWidth c + dx, PosY := r.Y * RegionHeight c + dy }
      TeamPlace.HomeTeam = r := by
  obtain ⟨w0, we⟩ := RegionWidth_of_pos (c := c) (by omega)
  obtain ⟨h0, he⟩ := RegionHeight_of_pos (c := c) (by omega)
  obtain ⟨x, y⟩ := r
  unfold RegionCode.InGrid at hr
  unfold IsInt64 at hW hH
  dsimp only at hr ⊢
  obtain ⟨mx0, mx7⟩ := mul_cell_bounds (x := x) (w := RegionWidth c) (k := 7)
    (by omega) (by omega) (by omega)
  obtain ⟨my0, my3⟩ := mul_cell_bounds (x := y) (w := RegionHeight c) (k := 3)
    (by omega) (by omega) (by omega)
  have qx : (x * RegionWidth c + dx) / RegionWidth c = x :=
    ediv_eq_of_bounds (by omega) (by omega) (by rw [add_mul, one_mul]; omega)
  have qy : (y * RegionHeight c + dy) / RegionHeight c = y :=
    ediv_eq_of_bounds (by omega) (by omega) (by rw [add_mul, one_mul]; omega)
  rw [GetRegionCode_home_ediv c _ (by dsimp only; omega) (by unfold IsInt64; dsimp only; omega)
    (by dsimp only; omega) (by unfold IsInt64; dsimp only; omega) (by omega) (by omega)]
  dsimp only
  rw [qx, qy, RegionCode.mk.injEq]
  omega

/-- The home-side center of a code of the grid, in exact arithmetic. -/
theorem Center_home_inGrid (c : Config) (r : RegionCode) (hr : r.InGrid)
    (hW : IsInt64 c.CourtWidth) (hH : IsInt64 c.CourtHeight)
    (hw : 1 ≤ RegionWidth c) (hh : 1 ≤ RegionHeight c) :
    r.Center c TeamPlace.HomeTeam =
      { PosX := r.X * RegionWidth c + RegionWidth c / 2
        PosY := r.Y * RegionHeight c + RegionHeight c / 2 } := by
  obtain ⟨w0, we⟩ := RegionWidth_of_pos (c := c) (by omega)
  obtain ⟨h0, he⟩ := RegionHeight_of_pos (c := c) (by omega)
  unfold RegionCode.InGrid at hr
  unfold IsInt64 at hW hH
  obtain ⟨mx0, mx7⟩ := mul_cell_bounds (x := r.X) (w := RegionWidth c) (k := 7)
    (by omega) (by omega) (by omega)
  obtain ⟨my0, my3⟩ := mul_cell_bounds (x := r.Y) (w := RegionHeight c) (k := 3)
    (by omega) (by omega) (by omega)
  unfold RegionCode.Center
  rw [if_neg (by decide), addInt_mulInt, addInt_mulInt,
    Int.tdiv_eq_ediv (by omega) (by decide), Int.tdiv_eq_ediv (by omega) (by decide),
    wrap64_of_isInt64 (by unfold IsInt64; omega), wrap64_of_isInt64 (by unfold IsInt64; omega)]

/-- Every point made by `int` arithmetic has `int` coordinates. -/
theorem valid_wrap (x y : Int) : Point.Valid { PosX := wrap64 x, PosY := wrap64 y } :=
  ⟨isInt64_wrap64 x, isInt64_wrap64 y⟩

/-- Claim C16: round trip through the cell center.  For a code `r` of the grid,
either side, region sizes of at least 1 and court extents that are `int`
constants, the lookup of `r.Center(side)` for the same side is `r`. -/
theorem GetRegionCode_Center (c : Config) (r : RegionCode) (side : TeamPlace)
    (hr : r.InGrid) (hW : IsInt64 c.CourtWidth) (hH : IsInt64 c.CourtHeight)
    (hw : 1 ≤ RegionWidth c) (hh : 1 ≤ RegionHeight c) :
    GetRegionCode c (r.Center c side) side = r := by
  have home : GetRegionCode c (r.Center c TeamPlace.HomeTeam) TeamPlace.HomeTeam = r := by
    rw [Center_home_inGrid c r hr hW hH hw hh]
    exact GetRegionCode_cell c r _ _ hr hW hH hw hh (by omega) (by omega) (by omega) (by omega)
  cases side with
  | HomeTeam => exact home
  | AwayTeam =>
    have e : r.Center c TeamPlace.AwayTeam =
        MirrorCoordsToAway c (r.Center c TeamPlace.HomeTeam) := by
      unfold RegionCode.Center
      rw [if_pos rfl, if_neg (by decide)]
    have v : (r.Center c TeamPlace.HomeTeam).Valid := by
      unfold RegionCode.Center
      rw [if_neg (by decide)]
      exact valid_wrap _ _
    rw [e, GetRegionCode_away_mirror c _ v]
    exact home

/-- Witness of C16 at the code `{3, 1}` of a 20000 × 10000 court, for the away
side. -/
theorem GetRegionCode_Center_witness :
    GetRegionCode sampleConfig
        (RegionCode.Center sampleConfig { X := 3, Y := 1 } TeamPlace.AwayTeam)
        TeamPlace.AwayTeam = { X := 3, Y := 1 } :=
  GetRegionCode_Center sampleConfig { X := 3, Y := 1 } TeamPlace.AwayTeam (by decide)
    (by decide) (by decide) (by decide) (by decide)

/-- The home-side lookup of a grid corner `(x*w, y*h)`, for `x` up to 8 and `y`
up to 4: the far corners are clamped to the last column and row. -/
theorem GetRegionCode_corner (c : Config) (x y : Int)
    (hx0 : 0 ≤ x) (hx8 : x ≤ 8) (hy0 : 0 ≤ y) (hy4 : y ≤ 4)
    (hW : IsInt64 c.CourtWidth) (hH : IsInt64 c.CourtHeight)
    (hw : 1 ≤ RegionWidth c) (hh : 1 ≤ RegionHeight c) :
    GetRegionCode c { PosX := x * RegionWidth c, PosY := y * RegionHeight c }
      TeamPlace.HomeTeam = { X := min x 7, Y := min y 3 } := by
  obtain ⟨w0, we⟩ := RegionWidth_of_pos (c := c) (by omega)
  obtain ⟨h0, he⟩ := RegionHeight_of_pos (c := c) (by omega)
  unfold IsInt64 at hW hH
  obtain ⟨mx0, mx8⟩ := mul_cell_bounds (x := x) (w := RegionWidth c) (k := 8)
    hx0 hx8 (by omega)
  obtain ⟨my0, my4⟩ := mul_cell_bounds (x := y) (w := RegionHeight c) (k := 4)
    hy0 hy4 (by omega)
  rw [GetRegionCode_home_ediv c _ (by dsimp only; omega) (by unfold IsInt64; dsimp only; omega)
    (by dsimp only; omega) (by unfold IsInt64; dsimp only; omega) (by omega) (by omega)]
  dsimp only
  rw [Int.mul_ediv_cancel x (by omega), Int.mul_ediv_cancel y (by omega)]

/-- The home-side forward corners of a code of the grid, in exact
arithmetic. -/
theorem corners_home_inGrid (c : Config) (r : RegionCode) (hr : r.InGrid)
    (hW : IsInt64 c.CourtWidth) (hH : IsInt64 c.CourtHeight)
    (hw : 1 ≤ RegionWidth c) (hh : 1 ≤ RegionHeight c) :
    r.ForwardRightCorner c TeamPlace.HomeTeam =
        { PosX := (r.X + 1) * RegionWidth c, PosY := r.Y * RegionHeight c } ∧
      r.ForwardLeftCorner c TeamPlace.HomeTeam =
        { PosX := (r.X + 1) * RegionWidth c, PosY := (r.Y + 1) * RegionHeight c } := by
  obtain ⟨w0, we⟩ := RegionWidth_of_pos (c := c) (by omega)
  obtain ⟨h0, he⟩ := RegionHeight_of_pos (c := c) (by omega)
  unfold RegionCode.InGrid at hr
  unfold IsInt64 at hW hH
  obtain ⟨mx0, mx8⟩ := mul_cell_bounds (x := r.X + 1) (w := RegionWidth c) (k := 8)
    (by omega) (by omega) (by omega)
  obtain ⟨my0, my3⟩ := mul_cell_bounds (x := r.Y) (w := RegionHeight c) (k := 3)
    (by omega) (by omega) (by omega)
  obtain ⟨ny0, ny4⟩ := mul_cell_bounds (x := r.Y + 1) (w := RegionHeight c) (k := 4)
    (by omega) (by omega) (by omega)
  have ex : mulInt (addInt r.X 1) (RegionWidth c) = (r.X + 1) * RegionWidth c := by
    rw [mulInt_addInt, wrap64_of_isInt64 (by unfold IsInt64; omega)]
  have ey : mulInt r.Y (RegionHeight c) = r.Y * RegionHeight c :=
    wrap64_of_isInt64 (by unfold IsInt64; omega)
  have ez : mulInt (addInt r.Y 1) (RegionHeight c) = (r.Y + 1) * RegionHeight c := by
    rw [mulInt_addInt, wrap64_of_isInt64 (by unfold IsInt64; omega)]
  unfold RegionCode.ForwardRightCorner RegionCode.ForwardLeftCorner
  rw [if_neg (by decide), if_neg (by decide), ex, ey, ez]
  exact ⟨rfl, rfl⟩

/-- Claim C18: the forward corners land in the forward cell.  For a code `r` of
the grid, either side, region sizes of at least 1 and court extents that are
`int` constants, the lookup of `r.ForwardRightCorner(side)` is `r.Forwards()`
and the lookup of `r.ForwardLeftCorner(side)` is `r.Forwards().Left()`, also at
the last column and the last row. -/
theorem GetRegionCode_forward_corners (c : Config) (r : RegionCode) (side : TeamPlace)
    (hr : r.InGrid) (hW : IsInt64 c.CourtWidth) (hH : IsInt64 c.CourtHeight)
    (hw : 1 ≤ RegionWidth c) (hh : 1 ≤ RegionHeight c) :
    GetRegionCode c (r.ForwardRightCorner c side) side = r.Forwards ∧
      GetRegionCode c (r.ForwardLeftCorner c side) side = r.Forwards.Left := by
  obtain ⟨fr, fl⟩ := corners_home_inGrid c r hr hW hH hw hh
  obtain ⟨nf, -, -, -⟩ := nav_coords r hr
  obtain ⟨gf, -, -, -⟩ := hstep_bounds HStep.forwards r hr
  rw [hstep_forwards] at gf
  obtain ⟨-, -, nl, -⟩ := nav_coords r.Forwards gf
  have home : GetRegionCode c (r.ForwardRightCorner c TeamPlace.HomeTeam) TeamPlace.HomeTeam
        = r.Forwards ∧
      GetRegionCode c (r.ForwardLeftCorner c TeamPlace.HomeTeam) TeamPlace.HomeTeam
        = r.Forwards.Left := by
    unfold RegionCode.InGrid at hr
    rw [nl, nf, fr, fl,
      GetRegionCode_corner c (r.X + 1) r.Y (by omega) (by omega) (by omega) (by omega)
        hW hH hw hh,
      GetRegionCode_corner c (r.X + 1) (r.Y + 1) (by omega) (by omega) (by omega) (by omega)
        hW hH hw hh]
    dsimp only
    rw [RegionCode.mk.injEq, RegionCode.mk.injEq]
    omega
  cases side with
  | HomeTeam => exact home
  | AwayTeam =>
    have e1 : r.ForwardRightCorner c TeamPlace.AwayTeam =
        MirrorCoordsToAway c (r.ForwardRightCorner c TeamPlace.HomeTeam) := by
      unfold RegionCode.ForwardRightCorner
      rw [if_pos rfl, if_neg (by decide)]
    have e2 : r.ForwardLeftCorner c TeamPlace.AwayTeam =
        MirrorCoordsToAway c (r.ForwardLeftCorner c TeamPlace.HomeTeam) := by
      unfold RegionCode.ForwardLeftCorner
      rw [if_pos rfl, if_neg (by decide)]
    have v1 : (r.ForwardRightCorner c TeamPlace.HomeTeam).Valid := by
      unfold RegionCode.ForwardRightCorner
      rw [if_neg (by decide)]
      exact valid_wrap _ _
    have v2 : (r.ForwardLeftCorner c TeamPlace.HomeTeam).Valid := by
      unfold RegionCode.ForwardLeftCorner
      rw [if_neg (by decide)]
      exact valid_wrap _ _
    rw [e1, e2, GetRegionCode_away_mirror c _ v1, GetRegionCode_away_mirror c _ v2]
    exact home

/-- Witness of C18 at the far corner code `{7, 3}` of a 20000 × 10000 court,
for the away side. -/
theorem GetRegionCode_forward_corners_witness :
    GetRegionCode sampleConfig
        (RegionCode.ForwardRightCorner sampleConfig { X := 7, Y := 3 } TeamPlace.AwayTeam)
        TeamPlace.AwayTeam = RegionCode.Forwards { X := 7, Y := 3 } ∧
      GetRegionCode sampleConfig
        (RegionCode.ForwardLeftCorner sampleConfig { X := 7, Y := 3 } TeamPlace.AwayTeam)
        TeamPlace.AwayTeam = RegionCode.Left (RegionCode.Forwards { X := 7, Y := 3 }) :=
  GetRegionCode_forward_corners sampleConfig { X := 7, Y := 3 } TeamPlace.AwayTeam
    (by decide) (by decide) (by decide) (by decide) (by decide)

/-! ## The two perspectives of a point -/

/-- The quotient of the mirrored coordinate `k*w - x`, for a coordinate `x` that
is not a multiple of the cell size `w`. -/
theorem ediv_mirror {x w : Int} (k : Int) (hw : 0 < w) (hm : x % w ≠ 0) :
    (k * w - x) / w = k - 1 - x / w := by
  have e := Int.ediv_add_emod x w
  have t0 := Int.emod_nonneg x (show w ≠ 0 by omega)
  have t1 := Int.emod_lt_of_pos x hw
  have e1 : (k - 1 - x / w) * w = k * w - w - w * (x / w) := by ring
  have e2 : (k - 1 - x / w + 1) * w = k * w - w * (x / w) := by ring
  apply ediv_eq_of_bounds hw
  · rw [e1]; omega
  · rw [e2]; omega

/-- Claim C17: perspective mirroring of region codes.  When the grid tiles the
court exactly, for a point strictly inside the court whose coordinates are not
multiples of the region sizes, the away-side code is `{7 - x, 3 - y}` for the
home-side code `{x, y}`. -/
theorem GetRegionCode_away_flip (c : Config) (p : Point)
    (hW : IsInt64 c.CourtWidth) (hH : IsInt64 c.CourtHeight)
    (tw : c.CourtWidth = 8 * RegionWidth c) (th : c.CourtHeight = 4 * RegionHeight c)
    (hx0 : 0 < p.PosX) (hx : p.PosX < c.CourtWidth) (hxm : p.PosX % RegionWidth c ≠ 0)
    (hy0 : 0 < p.PosY) (hy : p.PosY < c.CourtHeight) (hym : p.PosY % RegionHeight c ≠ 0) :
    GetRegionCode c p TeamPlace.AwayTeam =
      { X := 7 - (GetRegionCode c p TeamPlace.HomeTeam).X
        Y := 3 - (GetRegionCode c p TeamPlace.HomeTeam).Y } := by
  unfold IsInt64 at hW hH
  have hw : 0 < RegionWidth c := by omega
  have hh : 0 < RegionHeight c := by omega
  have away : GetRegionCode c p TeamPlace.AwayTeam =
      GetRegionCode c (MirrorCoordsToAway c p) TeamPlace.HomeTeam := by
    unfold GetRegionCode
    rw [if_pos rfl, if_neg (by decide)]
  have mir : MirrorCoordsToAway c p =
      { PosX := c.CourtWidth - p.PosX, PosY := c.CourtHeight - p.PosY } := by
    unfold MirrorCoordsToAway subInt
    rw [wrap64_of_isInt64 (by unfold IsInt64; omega),
      wrap64_of_isInt64 (by unfold IsInt64; omega)]
  have qx := ediv_mirror 8 hw hxm
  have qy := ediv_mirror 4 hh hym
  have bx0 : 0 ≤ p.PosX / RegionWidth c := Int.ediv_nonneg (by omega) (by omega)
  have bx7 : p.PosX / RegionWidth c < 8 := Int.ediv_lt_of_lt_mul hw (by omega)
  have by0 : 0 ≤ p.PosY / RegionHeight c := Int.ediv_nonneg (by omega) (by omega)
  have by3 : p.PosY / RegionHeight c < 4 := Int.ediv_lt_of_lt_mul hh (by omega)
  rw [away, mir,
    GetRegionCode_home_ediv c _ (by dsimp only; omega) (by unfold IsInt64; dsimp only; omega)
      (by dsimp only; omega) (by unfold IsInt64; dsimp only; omega) (by omega) (by omega),
    GetRegionCode_home_ediv c p (by omega) (by unfold IsInt64; omega)
      (by omega) (by unfold IsInt64; omega) (by omega) (by omega)]
  dsimp only
  rw [tw, th, qx, qy, RegionCode.mk.injEq]
  omega

/-- Witness of C17 at the point (6000, 2600) of a 20000 × 10000 court: home
code `{2, 1}`, away code `{5, 2}`. -/
theorem GetRegionCode_away_flip_witness :
    GetRegionCode sampleConfig samplePoint TeamPlace.AwayTeam =
      { X := 7 - (GetRegionCode sampleConfig samplePoint TeamPlace.HomeTeam).X
        Y := 3 - (GetRegionCode sampleConfig samplePoint TeamPlace.HomeTeam).Y } :=
  GetRegionCode_away_flip sampleConfig samplePoint (by decide) (by decide) (by decide)
    (by decide) (by decide) (by decide) (by decide) (by decide) (by decide) (by decide)

/-- The two codes of the sample point. -/
theorem GetRegionCode_sample :
    GetRegionCode sampleConfig samplePoint TeamPlace.HomeTeam = { X := 2, Y := 1 } ∧
      GetRegionCode sampleConfig samplePoint TeamPlace.AwayTeam = { X := 5, Y := 2 } := by
  decide

/-! ## Steps, their inverses and the distance -/

/-- Claim C19: opposite steps undo each other away from the edge.  For a code
`r` of the grid, `Forwards` then `Backwards` gives `r` when `r.X < 7`,
`Backwards` then `Forwards` gives `r` when `r.X > 0`, `Left` then `Right` gives
`r` when `r.Y < 3`, and `Right` then `Left` gives `r` when `r.Y > 0`. -/
theorem navigation_inverse (r : RegionCode) (hr : r.InGrid) :
    (r.X < 7 → r.Forwards.Backwards = r) ∧ (0 < r.X → r.Backwards.Forwards = r) ∧
      (r.Y < 3 → r.Left.Right = r) ∧ (0 < r.Y → r.Right.Left = r) := by
  obtain ⟨e1, e2, e3, e4⟩ := nav_coords r hr
  obtain ⟨g1, -, -, -⟩ := hstep_bounds HStep.forwards r hr
  obtain ⟨g2, -, -, -⟩ := hstep_bounds HStep.backwards r hr
  obtain ⟨g3, -, -, -⟩ := vstep_bounds VStep.left r hr
  obtain ⟨g4, -, -, -⟩ := vstep_bounds VStep.right r hr
  rw [hstep_forwards] at g1
  rw [hstep_backwards] at g2
  rw [vstep_left] at g3
  rw [vstep_right] at g4
  obtain ⟨-, f1, -, -⟩ := nav_coords r.Forwards g1
  obtain ⟨f2, -, -, -⟩ := nav_coords r.Backwards g2
  obtain ⟨-, -, -, f3⟩ := nav_coords r.Left g3
  obtain ⟨-, -, f4, -⟩ := nav_coords r.Right g4
  rw [f1, f2, f3, f4, e1, e2, e3, e4]
  obtain ⟨x, y⟩ := r
  unfold RegionCode.InGrid at hr
  dsimp only at hr ⊢
  simp only [RegionCode.mk.injEq, and_true, true_and]
  refine ⟨?_, ?_, ?_, ?_⟩ <;> intro h <;> omega

/-- Witness of C19 at the inner code `{3, 1}`, where all four premises hold. -/
theorem navigation_inverse_witness :
    ((3 : Int) < 7 → RegionCode.Backwards (RegionCode.Forwards { X := 3, Y := 1 })
        = { X := 3, Y := 1 }) ∧
      ((0 : Int) < 3 → RegionCode.Forwards (RegionCode.Backwards { X := 3, Y := 1 })
        = { X := 3, Y := 1 }) ∧
      ((1 : Int) < 3 → RegionCode.Right (RegionCode.Left { X := 3, Y := 1 })
        = { X := 3, Y := 1 }) ∧
      ((0 : Int) < 1 → RegionCode.Left (RegionCode.Right { X := 3, Y := 1 })
        = { X := 3, Y := 1 }) :=
  navigation_inverse { X := 3, Y := 1 } (by decide)

/-- Two codes whose coordinates differ by at most one, as `int` differences,
are at chess distance at most one. -/
theorem ChessDistanceTo_le_one (c : Config) (r s : RegionCode)
    (hx : (subInt r.X s.X).natAbs ≤ 1) (hy : (subInt r.Y s.Y).natAbs ≤ 1) :
    r.ChessDistanceTo c s ≤ 1 := by
  rw [ChessDistanceTo_eq, roundNat_of_le (by omega), roundNat_of_le (by omega)]
  unfold intOfFloat
  rw [if_pos (by unfold IsInt64; omega)]
  omega

/-- The `int` difference of a number and its successor or predecessor has
magnitude one, also when the step wraps around. -/
theorem natAbs_subInt_step (x : Int) :
    (subInt x (addInt x 1)).natAbs ≤ 1 ∧ (subInt x (subInt x 1)).natAbs ≤ 1 ∧
      (subInt x x).natAbs ≤ 1 := by
  unfold subInt addInt wrap64
  omega

/-- Claim C20: triangle inequality on the grid, and a single navigation step
moves at most distance 1.  For codes `a`, `b`, `d` of the grid
`a.ChessDistanceTo(d) ≤ a.ChessDistanceTo(b) + b.ChessDistanceTo(d)`, and for
every code `r` the distance from `r` to each of `r.Forwards()`,
`r.Backwards()`, `r.Left()` and `r.Right()` is at most 1. -/
theorem ChessDistanceTo_triangle (c : Config) (a b d r : RegionCode)
    (ha : a.InGrid) (hb : b.InGrid) (hd : d.InGrid) :
    a.ChessDistanceTo c d ≤ a.ChessDistanceTo c b + b.ChessDistanceTo c d ∧
      r.ChessDistanceTo c r.Forwards ≤ 1 ∧ r.ChessDistanceTo c r.Backwards ≤ 1 ∧
      r.ChessDistanceTo c r.Left ≤ 1 ∧ r.ChessDistanceTo c r.Right ≤ 1 := by
  obtain ⟨s1, s2, s3⟩ := natAbs_subInt_step r.X
  obtain ⟨t1, t2, t3⟩ := natAbs_subInt_step r.Y
  refine ⟨?_, ?_, ?_, ?_, ?_⟩
  · rw [ChessDistanceTo_inGrid c a d ha hd, ChessDistanceTo_inGrid c a b ha hb,
      ChessDistanceTo_inGrid c b d hb hd, chebyshev_eq, chebyshev_eq, chebyshev_eq]
    omega
  · apply ChessDistanceTo_le_one <;> unfold RegionCode.Forwards <;> split_ifs <;> assumption
  · apply ChessDistanceTo_le_one <;> unfold RegionCode.Backwards <;> split_ifs <;> assumption
  · apply ChessDistanceTo_le_one <;> unfold RegionCode.Left <;> split_ifs <;> assumption
  · apply ChessDistanceTo_le_one <;> unfold RegionCode.Right <;> split_ifs <;> assumption

/-- Witness of C20 at the codes `{0, 0}`, `{3, 2}`, `{7, 3}` and the corner
code `{7, 0}`. -/
theorem ChessDistanceTo_triangle_witness :
    RegionCode.ChessDistanceTo sampleConfig { X := 0, Y := 0 } { X := 7, Y := 3 } ≤
        RegionCode.ChessDistanceTo sampleConfig { X := 0, Y := 0 } { X := 3, Y := 2 } +
          RegionCode.ChessDistanceTo sampleConfig { X := 3, Y := 2 } { X := 7, Y := 3 } ∧
      RegionCode.ChessDistanceTo sampleConfig { X := 7, Y := 0 }
        (RegionCode.Forwards { X := 7, Y := 0 }) ≤ 1 ∧
      RegionCode.ChessDistanceTo sampleConfig { X := 7, Y := 0 }
        (RegionCode.Backwards { X := 7, Y := 0 }) ≤ 1 ∧
      RegionCode.ChessDistanceTo sampleConfig { X := 7, Y := 0 }
        (RegionCode.Left { X := 7, Y := 0 }) ≤ 1 ∧
      RegionCode.ChessDistanceTo sampleConfig { X := 7, Y := 0 }
        (RegionCode.Right { X := 7, Y := 0 }) ≤ 1 :=
  ChessDistanceTo_triangle sampleConfig { X := 0, Y := 0 } { X := 3, Y := 2 }
    { X := 7, Y := 3 } { X := 7, Y := 0 } (by decide) (by decide) (by decide)

end Strategy
